import Mathlib

/-!
Shallow embedding of `app.py`, a FastAPI review service:

* `analyze_sentiment` — keyword sentiment classifier (app.py, lines 47-53);
* `create_review` — POST /reviews handler body: insert a row, read it back
  by the assigned id (app.py, lines 56-71);
* `get_reviews` — GET /reviews handler: optional sentiment filter, ordered
  by `created_at` descending (app.py, lines 74-86);
* `postReviews` — the full POST endpoint including the request-body
  validation performed by the framework (pydantic `ReviewRequest`).

Text is modelled as `List Char`; the PostgreSQL table as a list of rows in
insertion order plus the `SERIAL` id counter; `datetime.now()` values as a
calendar record ordered lexicographically by field.
-/

/-- Model of Python `str.lower` as a per-character map, covering ASCII and
the Cyrillic letters exercised by the keyword lists (U+0410..U+042F and Ё);
identity on every other character. -/
def pyCharLower (c : Char) : Char :=
  if 'A' ≤ c ∧ c ≤ 'Z' then Char.ofNat (c.toNat + 32)
  else if 'А' ≤ c ∧ c ≤ 'Я' then Char.ofNat (c.toNat + 32)
  else if c = 'Ё' then 'ё'
  else c

/-- Model of Python `text.lower()`. -/
def pyLower (t : List Char) : List Char := t.map pyCharLower

/-- Model of Python `w in t` on strings: `w` occurs as a contiguous
substring of `t`.  Implemented as: some suffix of `t` starts with `w`. -/
def hasSub (w t : List Char) : Bool := t.tails.any (fun s => w.isPrefixOf s)

/-- The positive keyword list of `analyze_sentiment` (app.py, line 49). -/
def positiveWords : List (List Char) := ["хорош".toList, "люблю".toList]

/-- The negative keyword list of `analyze_sentiment` (app.py, line 51). -/
def negativeWords : List (List Char) := ["плохо".toList, "ненавиж".toList]

/-- `analyze_sentiment` (app.py, lines 47-53): lower-case the input, return
"positive" if it contains any positive keyword, else "negative" if it
contains any negative keyword, else "neutral". -/
def analyze_sentiment (text : List Char) : String :=
  let text_lower := pyLower text
  if positiveWords.any (fun w => hasSub w text_lower) then "positive"
  else if negativeWords.any (fun w => hasSub w text_lower) then "negative"
  else "neutral"

/-- Model of a Python `datetime` value (the result of `datetime.now()`),
also the value stored in the `TIMESTAMP` column. -/
structure DateTime where
  year : Nat
  month : Nat
  day : Nat
  hour : Nat
  minute : Nat
  second : Nat
  microsecond : Nat
deriving Repr, DecidableEq

/-- The field list of a `DateTime`, most significant first; timestamps
compare lexicographically on this list. -/
def DateTime.key (d : DateTime) : List Nat :=
  [d.year, d.month, d.day, d.hour, d.minute, d.second, d.microsecond]

/-- Lexicographic `≤` on lists of naturals (Bool-valued, total). -/
def lexLe : List Nat → List Nat → Bool
  | [], _ => true
  | _ :: _, [] => false
  | a :: as, b :: bs => if a < b then true else if b < a then false else lexLe as bs

/-- Timestamp comparison: `a` is at or before `b`. -/
def DateTime.leb (a b : DateTime) : Bool := lexLe a.key b.key

/-- Strict timestamp comparison: `a` is strictly before `b`. -/
def DateTime.ltb (a b : DateTime) : Bool := !(DateTime.leb b a)

/-- Left-pad the decimal rendering of `n` with zeros to `width` digits. -/
def padZ (width : Nat) (n : Nat) : String :=
  let s := Nat.repr n
  String.mk (List.replicate (width - s.length) '0') ++ s

/-- Modelled from the spec: the framework (pydantic serialization of the
`created_at` value read back from the store) renders the timestamp as an
ISO-8601-like string `YYYY-MM-DDTHH:MM:SS.ffffff`; this rendering is
library code, not part of `src/app.py`. -/
def DateTime.render (d : DateTime) : String :=
  padZ 4 d.year ++ "-" ++ padZ 2 d.month ++ "-" ++ padZ 2 d.day ++ "T" ++
  padZ 2 d.hour ++ ":" ++ padZ 2 d.minute ++ ":" ++ padZ 2 d.second ++ "." ++
  padZ 6 d.microsecond

/-- One row of the `reviews` table (app.py, lines 27-32). -/
structure Row where
  id : Nat
  text : List Char
  sentiment : String
  created_at : DateTime
deriving Repr, DecidableEq

/-- The `reviews` table: rows in insertion order, plus the next value of the
`SERIAL` id sequence. -/
structure Db where
  rows : List Row
  nextId : Nat
deriving Repr, DecidableEq

/-- The state after `init_db` on a fresh database: empty table, `SERIAL`
sequence starting at 1 (app.py, lines 24-33). -/
def initDb : Db := { rows := [], nextId := 1 }

/-- Well-formedness maintained by the `SERIAL` sequence: every stored id is
below the next sequence value (hence fresh ids are unused). -/
def WF (db : Db) : Prop := ∀ r ∈ db.rows, r.id < db.nextId

instance (db : Db) : Decidable (WF db) :=
  inferInstanceAs (Decidable (∀ r ∈ db.rows, r.id < db.nextId))

/-- The read-back query of `create_review` (app.py, lines 67-70):
`SELECT ... FROM reviews WHERE id = $1`. -/
def selectById (db : Db) (i : Nat) : Option Row :=
  db.rows.find? (fun r => r.id == i)

/-- Comparison used to model `ORDER BY created_at DESC`: `a` may precede `b`
when `a`'s timestamp is at or after `b`'s. -/
def rowLe (a b : Row) : Bool := DateTime.leb b.created_at a.created_at

/-- The descending-timestamp order as a relation, for the sorting lemmas. -/
def RowLeP (a b : Row) : Prop := rowLe a b = true

instance : DecidableRel RowLeP :=
  fun a b => inferInstanceAs (Decidable (rowLe a b = true))

/-- Model of `ORDER BY created_at DESC`: a stable descending sort, matching
the spec's requirement that the order be stable for a given store state. -/
def orderByCreatedDesc (rs : List Row) : List Row := rs.insertionSort RowLeP

/-- `get_reviews` (app.py, lines 74-86).  Python's `if sentiment:` is false
both for `None` and for the empty string, so an empty-string filter takes
the unfiltered branch. -/
def get_reviews (db : Db) (sentiment : Option String) : List Row :=
  match sentiment with
  | some s =>
      if s = "" then orderByCreatedDesc db.rows
      else orderByCreatedDesc (db.rows.filter (fun r => r.sentiment == s))
  | none => orderByCreatedDesc db.rows

/-- The validated creation request body (app.py, lines 36-37). -/
structure ReviewRequest where
  text : List Char
deriving Repr, DecidableEq

/-- The response shape (app.py, lines 40-44); `created_at` is a string. -/
structure ReviewResponse where
  id : Nat
  text : List Char
  sentiment : String
  created_at : String
deriving Repr, DecidableEq

/-- Serialization of a fetched row into the response model. -/
def rowToResponse (r : Row) : ReviewResponse :=
  { id := r.id, text := r.text, sentiment := r.sentiment,
    created_at := DateTime.render r.created_at }

/-- Core of `create_review` (app.py, lines 56-71), after validation:
compute the sentiment, insert a row (the `SERIAL` column assigns the next
id), then re-read the inserted row by that id.  Returns the new state and
the fetched row. -/
def create_review (db : Db) (review : ReviewRequest) (now : DateTime) :
    Db × Option Row :=
  let sentiment := analyze_sentiment review.text
  let row : Row := { id := db.nextId, text := review.text,
                     sentiment := sentiment, created_at := now }
  let db1 : Db := { rows := db.rows ++ [row], nextId := db.nextId + 1 }
  (db1, selectById db1 db.nextId)

/-- A JSON value, for modelling raw request bodies. -/
inductive Json where
  | str (s : List Char)
  | num (n : Int)
  | boolean (b : Bool)
  | null
  | arr (xs : List Json)
  | obj (fields : List (String × Json))

/-- The error class surfaced by the endpoint for invalid input. -/
inductive HttpError where
  | clientError
deriving Repr, DecidableEq

/-- Modelled from the spec: FastAPI/pydantic validation of the request body
against `ReviewRequest` (this validation is framework code, not part of
`src/app.py`).  A missing body or non-object JSON is malformed; a body whose
`text` field is absent or not a string fails validation; both are client
errors. -/
def parseReviewRequest : Option Json → Except HttpError ReviewRequest
  | none => Except.error HttpError.clientError
  | some (Json.obj fields) =>
      match fields.lookup "text" with
      | some (Json.str s) => Except.ok { text := s }
      | some _ => Except.error HttpError.clientError
      | none => Except.error HttpError.clientError
  | some _ => Except.error HttpError.clientError

/-- The full POST /reviews endpoint: validate the body, then run
`create_review`; a validation failure returns a client error and performs
no store operation. -/
def postReviews (db : Db) (body : Option Json) (now : DateTime) :
    Db × Except HttpError (Option ReviewResponse) :=
  match parseReviewRequest body with
  | Except.error e => (db, Except.error e)
  | Except.ok req =>
      let res := create_review db req now
      (res.1, Except.ok (res.2.map rowToResponse))

/-- Store states reachable through the service: the freshly initialized
store, followed by any sequence of POST /reviews requests (GET /reviews
does not change the state). -/
inductive Reachable : Db → Prop where
  | init : Reachable initDb
  | step : ∀ (db : Db) (body : Option Json) (now : DateTime),
      Reachable db → Reachable (postReviews db body now).1

/-- The row inserted by a successful creation: fresh id from the sequence,
the submitted text, the computed sentiment, the server clock value. -/
def newRow (db : Db) (req : ReviewRequest) (now : DateTime) : Row :=
  { id := db.nextId, text := req.text,
    sentiment := analyze_sentiment req.text, created_at := now }

theorem lexLe_refl : ∀ l : List Nat, lexLe l l = true
  | [] => rfl
  | _ :: as => by simp [lexLe, Nat.lt_irrefl, lexLe_refl as]

theorem lexLe_total : ∀ l1 l2 : List Nat, lexLe l1 l2 = true ∨ lexLe l2 l1 = true
  | [], _ => Or.inl rfl
  | _ :: _, [] => Or.inr rfl
  | a :: as, b :: bs => by
    rcases Nat.lt_trichotomy a b with h | h | h
    · left; simp [lexLe, h]
    · subst h
      rcases lexLe_total as bs with ih | ih
      · left; simp [lexLe, Nat.lt_irrefl, ih]
      · right; simp [lexLe, Nat.lt_irrefl, ih]
    · right; simp [lexLe, h]

theorem lexLe_trans : ∀ l1 l2 l3 : List Nat,
    lexLe l1 l2 = true → lexLe l2 l3 = true → lexLe l1 l3 = true
  | [], _, _, _, _ => rfl
  | _ :: _, [], _, h1, _ => by simp [lexLe] at h1
  | _ :: _, _ :: _, [], _, h2 => by simp [lexLe] at h2
  | a :: as, b :: bs, c :: cs, h1, h2 => by
    rcases Nat.lt_trichotomy a b with hab | hab | hab
    · rcases Nat.lt_trichotomy b c with hbc | hbc | hbc
      · simp [lexLe, Nat.lt_trans hab hbc]
      · subst hbc; simp [lexLe, hab]
      · exfalso; simp [lexLe, hbc, Nat.lt_asymm hbc] at h2
    · subst hab
      rcases Nat.lt_trichotomy a c with hac | hac | hac
      · simp [lexLe, hac]
      · subst hac
        simp only [lexLe, Nat.lt_irrefl, if_false] at h1 h2 ⊢
        exact lexLe_trans as bs cs h1 h2
      · exfalso; simp [lexLe, hac, Nat.lt_asymm hac] at h2
    · exfalso; simp [lexLe, hab, Nat.lt_asymm hab] at h1

instance : IsTotal Row RowLeP :=
  ⟨fun a b => lexLe_total b.created_at.key a.created_at.key⟩

instance : IsTrans Row RowLeP :=
  ⟨fun _ _ _ h1 h2 => lexLe_trans _ _ _ h2 h1⟩

/-- The executable substring test agrees with `List.IsInfix`. -/
theorem hasSub_iff (w t : List Char) : hasSub w t = true ↔ w <:+: t := by
  simp only [hasSub, List.any_eq_true, List.mem_tails,
    List.isPrefixOf_iff_prefix, List.infix_iff_prefix_suffix]
  constructor
  · rintro ⟨s, hs, hp⟩; exact ⟨s, hp, hs⟩
  · rintro ⟨s, hp, hs⟩; exact ⟨s, hs, hp⟩

/-- The classifier only ever produces the three enumerated values. -/
theorem analyze_sentiment_cases (t : List Char) :
    analyze_sentiment t = "positive" ∨ analyze_sentiment t = "negative" ∨
      analyze_sentiment t = "neutral" := by
  unfold analyze_sentiment
  dsimp only
  split_ifs <;> simp

/-- On a well-formed store the read-back of `create_review` finds exactly
the row just inserted, so the operation returns the new state paired with
that row. -/
theorem create_review_eq (db : Db) (req : ReviewRequest) (now : DateTime)
    (hwf : WF db) :
    create_review db req now =
      ({ rows := db.rows ++ [newRow db req now], nextId := db.nextId + 1 },
        some (newRow db req now)) := by
  unfold create_review selectById newRow
  dsimp only
  rw [List.find?_append]
  have h1 : List.find? (fun r => r.id == db.nextId) db.rows = none := by
    rw [List.find?_eq_none]
    intro x hx
    simp only [beq_iff_eq]
    exact Nat.ne_of_lt (hwf x hx)
  rw [h1]
  simp [List.find?]

/-- The listing is sorted: descending on `created_at`. -/
theorem orderBy_sorted (rs : List Row) :
    (orderByCreatedDesc rs).Pairwise RowLeP :=
  List.sorted_insertionSort RowLeP rs

/-- The listing is a permutation of its input rows. -/
theorem orderBy_mem (rs : List Row) (r : Row) :
    r ∈ orderByCreatedDesc rs ↔ r ∈ rs := by
  simp [orderByCreatedDesc, List.mem_insertionSort]

/-- Every state reachable through the endpoints is well-formed. -/
theorem wf_of_reachable {db : Db} (h : Reachable db) : WF db := by
  induction h with
  | init => intro r hr; simp [initDb] at hr
  | step db body now _ ih =>
    intro r hr
    unfold postReviews at hr ⊢
    cases hp : parseReviewRequest body with
    | error e => simp only [hp] at hr ⊢; exact ih r hr
    | ok req =>
      simp only [hp, create_review] at hr ⊢
      rcases List.mem_append.mp hr with h1 | h1
      · exact Nat.lt_succ_of_lt (ih r h1)
      · simp only [List.mem_singleton] at h1
        subst h1
        exact Nat.lt_succ_self _

/-- A fixed sample timestamp. -/
def epoch0 : DateTime := ⟨2025, 1, 1, 12, 0, 0, 0⟩

/-- A strictly later sample timestamp. -/
def epoch1 : DateTime := ⟨2025, 1, 1, 12, 0, 1, 0⟩

/-- A sample stored row with sentiment "positive". -/
def row0 : Row :=
  { id := 1, text := "хорошо".toList, sentiment := "positive", created_at := epoch0 }

/-- A sample store holding exactly `row0`. -/
def db0 : Db := { rows := [row0], nextId := 2 }

/-- The store after POSTing one positive review to a fresh service. -/
def dbPos : Db :=
  (postReviews initDb (some (Json.obj [("text", Json.str "хорошо".toList)])) epoch0).1

/-- The store after POSTing a review whose text is the empty string. -/
def dbEmptyText : Db :=
  (postReviews initDb (some (Json.obj [("text", Json.str [])])) epoch0).1

/-- C10: a list request whose `sentiment` query parameter is the empty
string is treated exactly as if the parameter were absent: it returns all
stored rows, not just those whose sentiment equals the empty string. -/
theorem c10_empty_filter_as_absent (db : Db) :
    get_reviews db (some "") = get_reviews db none ∧
    ∀ r : Row, r ∈ get_reviews db (some "") ↔ r ∈ db.rows := by
  constructor
  · rfl
  · intro r
    show r ∈ orderByCreatedDesc db.rows ↔ _
    exact orderBy_mem _ _

/-- C7 counterexample: the empty string is a filter value outside
positive, negative, neutral, no stored row carries it, yet the listing
returns a non-empty sequence (it returns every row). -/
theorem c7_counterexample :
    ¬ ("" = "positive" ∨ "" = "negative" ∨ "" = "neutral") ∧
    (∀ r ∈ db0.rows, r.sentiment ≠ "") ∧
    get_reviews db0 (some "") ≠ [] := by decide

/-- C7 (amended): listing with a non-empty filter value that no stored row
carries succeeds and returns the empty sequence; the empty-string filter
instead falls into the absent-parameter branch and returns all rows. -/
theorem c7_unrecognized_filter_amended (db : Db) (s : String) (hne : s ≠ "")
    (hnomatch : ∀ r ∈ db.rows, r.sentiment ≠ s) :
    get_reviews db (some s) = [] := by
  unfold get_reviews
  dsimp only
  rw [if_neg hne]
  have hf : db.rows.filter (fun r => r.sentiment == s) = [] := by
    rw [List.filter_eq_nil_iff]
    intro a ha
    simp only [beq_iff_eq]
    exact hnomatch a ha
  rw [hf]
  rfl

/-- C7 witness: the filter value "unknown" on the sample store. -/
theorem c7_witness :
    ("unknown" ≠ "" ∧ ∀ r ∈ db0.rows, r.sentiment ≠ "unknown") ∧
    get_reviews db0 (some "unknown") = [] :=
  ⟨⟨by decide, by decide⟩,
    c7_unrecognized_filter_amended db0 "unknown" (by decide) (by decide)⟩

/-- C6: a creation request whose body is missing the `text` field (or is
malformed) yields a client error and leaves the store unchanged: no row is
inserted. -/
theorem c6_missing_text_rejected (db : Db) (now : DateTime)
    (fields : List (String × Json)) (hmissing : fields.lookup "text" = none) :
    parseReviewRequest (some (Json.obj fields)) = Except.error HttpError.clientError ∧
    (postReviews db (some (Json.obj fields)) now).1 = db ∧
    (postReviews db (some (Json.obj fields)) now).1.rows.length = db.rows.length ∧
    (postReviews db (some (Json.obj fields)) now).2 = Except.error HttpError.clientError ∧
    ∀ body, parseReviewRequest body = Except.error HttpError.clientError →
      (postReviews db body now).1 = db := by
  have hp : parseReviewRequest (some (Json.obj fields)) =
      Except.error HttpError.clientError := by
    simp only [parseReviewRequest, hmissing]
  refine ⟨hp, ?_, ?_, ?_, ?_⟩
  · unfold postReviews; rw [hp]
  · unfold postReviews; rw [hp]
  · unfold postReviews; rw [hp]
  · intro body hb; unfold postReviews; rw [hb]

/-- C6 witness: a body that is a JSON object with no fields at all. -/
theorem c6_witness :
    (List.lookup "text" ([] : List (String × Json)) = none) ∧
    parseReviewRequest (some (Json.obj [])) = Except.error HttpError.clientError ∧
    (postReviews db0 (some (Json.obj [])) epoch0).1 = db0 :=
  ⟨rfl,
    (c6_missing_text_rejected db0 epoch0 [] rfl).1,
    (c6_missing_text_rejected db0 epoch0 [] rfl).2.1⟩

/-- C8: in every reachable store state, every persisted review's sentiment
is one of the three enumerated values. -/
theorem c8_sentiment_invariant (db : Db) (h : Reachable db) :
    ∀ r ∈ db.rows, r.sentiment = "positive" ∨ r.sentiment = "negative" ∨
      r.sentiment = "neutral" := by
  induction h with
  | init => intro r hr; simp [initDb] at hr
  | step db body now _ ih =>
    intro r hr
    unfold postReviews at hr
    cases hp : parseReviewRequest body with
    | error e => simp only [hp] at hr; exact ih r hr
    | ok req =>
      simp only [hp, create_review] at hr
      rcases List.mem_append.mp hr with h1 | h1
      · exact ih r h1
      · simp only [List.mem_singleton] at h1
        subst h1
        exact analyze_sentiment_cases req.text

/-- C8 witness: the invariant evaluated on the store reached by one
successful POST. -/
theorem c8_witness :
    row0.sentiment = "positive" ∨ row0.sentiment = "negative" ∨
      row0.sentiment = "neutral" :=
  c8_sentiment_invariant dbPos
    (Reachable.step initDb (some (Json.obj [("text", Json.str "хорошо".toList)])) epoch0
      Reachable.init)
    row0 (by decide)

/-- C9 counterexample: the service accepts an empty `text` and persists a
review whose text is the empty string, so the non-emptiness invariant fails
on a reachable state. -/
theorem c9_counterexample :
    Reachable dbEmptyText ∧
    dbEmptyText.rows =
      [{ id := 1, text := [], sentiment := "neutral", created_at := epoch0 }] ∧
    ∃ r ∈ dbEmptyText.rows, r.text = [] := by
  refine ⟨Reachable.step initDb (some (Json.obj [("text", Json.str [])])) epoch0
    Reachable.init, by decide, ?_⟩
  exact ⟨{ id := 1, text := [], sentiment := "neutral", created_at := epoch0 },
    by decide, rfl⟩

/-- C9 (amended): every persisted review's text is exactly the submitted
text, which may be the empty string — no non-emptiness is enforced. -/
theorem c9_text_stored_verbatim (db : Db) (body : Option Json) (now : DateTime)
    (req : ReviewRequest) (h : parseReviewRequest body = Except.ok req) :
    (postReviews db body now).1.rows =
      db.rows ++ [{ id := db.nextId, text := req.text,
                    sentiment := analyze_sentiment req.text, created_at := now }] := by
  unfold postReviews
  simp only [h, create_review]

/-- C9 witness: the empty-text request itself. -/
theorem c9_witness :
    parseReviewRequest (some (Json.obj [("text", Json.str [])])) =
      Except.ok { text := [] } ∧
    (postReviews initDb (some (Json.obj [("text", Json.str [])])) epoch0).1.rows =
      initDb.rows ++ [{ id := initDb.nextId, text := [],
                        sentiment := analyze_sentiment [], created_at := epoch0 }] :=
  ⟨rfl, c9_text_stored_verbatim initDb (some (Json.obj [("text", Json.str [])]))
    epoch0 { text := [] } rfl⟩

/-- C1: for every string input, the classifier returns "positive" exactly
when the lower-cased input contains a positive keyword, else "negative"
exactly when it contains a negative keyword, else "neutral"; the empty
string maps to "neutral" (and the precedence makes text with both kinds of
keyword positive). -/
theorem c1_classifier_spec (t : List Char) :
    (analyze_sentiment t = "positive" ↔ ∃ w ∈ positiveWords, w <:+: pyLower t) ∧
    (analyze_sentiment t = "negative" ↔
      ((¬ ∃ w ∈ positiveWords, w <:+: pyLower t) ∧
        ∃ w ∈ negativeWords, w <:+: pyLower t)) ∧
    (analyze_sentiment t = "neutral" ↔
      ((¬ ∃ w ∈ positiveWords, w <:+: pyLower t) ∧
        ¬ ∃ w ∈ negativeWords, w <:+: pyLower t)) ∧
    analyze_sentiment [] = "neutral" := by
  have e : analyze_sentiment t =
      if (positiveWords.any fun w => hasSub w (pyLower t)) then "positive"
      else if (negativeWords.any fun w => hasSub w (pyLower t)) then "negative"
      else "neutral" := rfl
  have hpos : (positiveWords.any fun w => hasSub w (pyLower t)) = true ↔
      ∃ w ∈ positiveWords, w <:+: pyLower t := by
    simp [List.any_eq_true, hasSub_iff]
  have hneg : (negativeWords.any fun w => hasSub w (pyLower t)) = true ↔
      ∃ w ∈ negativeWords, w <:+: pyLower t := by
    simp [List.any_eq_true, hasSub_iff]
  refine ⟨?_, ?_, ?_, by decide⟩ <;> rw [e] <;> split_ifs with h1 h2 <;>
    simp_all

/-- C2: on any well-formed store, creating a review and then listing
unfiltered yields a list containing the created review, whose text and
sentiment are exactly those the creation returned. -/
theorem c2_create_then_list_round_trip (db : Db) (t : List Char) (now : DateTime)
    (hwf : WF db) :
    ∃ r : Row, (create_review db ⟨t⟩ now).2 = some r ∧
      r ∈ get_reviews (create_review db ⟨t⟩ now).1 none ∧
      r.text = t ∧ r.sentiment = analyze_sentiment t := by
  have h := create_review_eq db ⟨t⟩ now hwf
  refine ⟨newRow db ⟨t⟩ now, ?_, ?_, rfl, rfl⟩
  · rw [h]
  · rw [h]
    show newRow db ⟨t⟩ now ∈ get_reviews _ none
    simp [get_reviews, orderBy_mem]

/-- C2 witness: a concrete creation on the fresh store. -/
theorem c2_witness :
    WF initDb ∧
    ∃ r : Row, (create_review initDb ⟨"хорошо".toList⟩ epoch0).2 = some r ∧
      r ∈ get_reviews (create_review initDb ⟨"хорошо".toList⟩ epoch0).1 none ∧
      r.text = "хорошо".toList ∧ r.sentiment = analyze_sentiment "хорошо".toList :=
  ⟨by decide, c2_create_then_list_round_trip initDb "хорошо".toList epoch0 (by decide)⟩

/-- C3 counterexample: the parameter present as the empty string does not
filter to rows whose sentiment is the empty string (there are none in the
sample store); it returns every row. -/
theorem c3_counterexample :
    db0.rows.filter (fun r => r.sentiment == "") = [] ∧
    get_reviews db0 (some "") = [row0] ∧
    get_reviews db0 (some "") ≠ [] := by decide

/-- C3 (amended): a present, non-empty `sentiment` parameter returns
exactly the stored rows whose sentiment equals that literal string; an
absent parameter — and likewise the empty string, which Python's truthiness
test conflates with absence — returns all rows. -/
theorem c3_filter_amended (db : Db) (sq : Option String) (r : Row) :
    r ∈ get_reviews db sq ↔
      (r ∈ db.rows ∧ ∀ s : String, sq = some s → s ≠ "" → r.sentiment = s) := by
  cases sq with
  | none => simp [get_reviews, orderBy_mem]
  | some s =>
    by_cases hs : s = ""
    · subst hs; simp [get_reviews, orderBy_mem]
    · simp [get_reviews, hs, orderBy_mem, List.mem_filter, beq_iff_eq]

/-- C4: on any well-formed store a successful creation returns the full
persisted record — id, text, sentiment, and the rendered `created_at` — as
read back from the store by the assigned id. -/
theorem c4_create_returns_read_back (db : Db) (t : List Char) (now : DateTime)
    (hwf : WF db) :
    ∃ r : Row,
      (create_review db ⟨t⟩ now).2 = some r ∧
      r.id = db.nextId ∧
      selectById (create_review db ⟨t⟩ now).1 r.id = some r ∧
      (postReviews db (some (Json.obj [("text", Json.str t)])) now).2 =
        Except.ok (some { id := r.id, text := r.text, sentiment := r.sentiment,
                          created_at := DateTime.render r.created_at }) := by
  have h := create_review_eq db ⟨t⟩ now hwf
  refine ⟨newRow db ⟨t⟩ now, by rw [h], rfl, ?_, ?_⟩
  · show selectById (create_review db ⟨t⟩ now).1 db.nextId = some (newRow db ⟨t⟩ now)
    have h2 : selectById (create_review db ⟨t⟩ now).1 db.nextId =
        (create_review db ⟨t⟩ now).2 := rfl
    rw [h2, h]
  · have hp : postReviews db (some (Json.obj [("text", Json.str t)])) now =
        ((create_review db ⟨t⟩ now).1,
          Except.ok ((create_review db ⟨t⟩ now).2.map rowToResponse)) := rfl
    rw [hp]
    show Except.ok ((create_review db ⟨t⟩ now).2.map rowToResponse) = _
    rw [h]
    rfl

/-- C4 witness: a concrete creation on the sample store. -/
theorem c4_witness :
    WF db0 ∧
    ∃ r : Row,
      (create_review db0 ⟨"плохой".toList⟩ epoch1).2 = some r ∧
      r.id = db0.nextId ∧
      selectById (create_review db0 ⟨"плохой".toList⟩ epoch1).1 r.id = some r ∧
      (postReviews db0 (some (Json.obj [("text", Json.str "плохой".toList)])) epoch1).2 =
        Except.ok (some { id := r.id, text := r.text, sentiment := r.sentiment,
                          created_at := DateTime.render r.created_at }) :=
  ⟨by decide, c4_create_returns_read_back db0 "плохой".toList epoch1 (by decide)⟩

/-- C5 counterexample: create review A then review B with equal timestamps
(so B's timestamp is ≥ A's); the unfiltered listing returns A before B, not
B before A, because the stable sort keeps insertion order among equal
`created_at` values. -/
theorem c5_tie_counterexample :
    DateTime.leb epoch0 epoch0 = true ∧
    get_reviews (create_review (create_review initDb ⟨"a".toList⟩ epoch0).1
        ⟨"b".toList⟩ epoch0).1 none =
      [{ id := 1, text := "a".toList, sentiment := "neutral", created_at := epoch0 },
       { id := 2, text := "b".toList, sentiment := "neutral", created_at := epoch0 }] ∧
    ({ id := 2, text := "b".toList, sentiment := "neutral", created_at := epoch0 } : Row) ≠
      { id := 1, text := "a".toList, sentiment := "neutral", created_at := epoch0 } := by
  decide

/-- C5 (amended): the listing is always ordered by `created_at` descending,
and when review A is created and then review B with B's timestamp strictly
greater than A's, the unfiltered listing returns B before A. -/
theorem c5_ordering_amended (db : Db) (tA tB : List Char) (nA nB : DateTime)
    (hlt : DateTime.ltb nA nB = true) :
    (∀ (d : Db) (q : Option String), (get_reviews d q).Pairwise RowLeP) ∧
    ∀ out, out = get_reviews (create_review (create_review db ⟨tA⟩ nA).1 ⟨tB⟩ nB).1 none →
      ∃ i j : Fin out.length, i.val < j.val ∧
        out.get i = newRow (create_review db ⟨tA⟩ nA).1 ⟨tB⟩ nB ∧
        out.get j = newRow db ⟨tA⟩ nA := by
  have hsorted : ∀ (d : Db) (q : Option String), (get_reviews d q).Pairwise RowLeP := by
    intro d q
    cases q with
    | none => exact orderBy_sorted _
    | some s =>
      unfold get_reviews
      dsimp only
      split_ifs <;> exact orderBy_sorted _
  refine ⟨hsorted, ?_⟩
  intro out hout
  have hrows : (create_review (create_review db ⟨tA⟩ nA).1 ⟨tB⟩ nB).1.rows =
      db.rows ++ [newRow db ⟨tA⟩ nA] ++
        [newRow (create_review db ⟨tA⟩ nA).1 ⟨tB⟩ nB] := rfl
  have hgr : get_reviews (create_review (create_review db ⟨tA⟩ nA).1 ⟨tB⟩ nB).1 none =
      orderByCreatedDesc
        ((create_review (create_review db ⟨tA⟩ nA).1 ⟨tB⟩ nB).1.rows) := rfl
  have hmemA : newRow db ⟨tA⟩ nA ∈ out := by
    rw [hout, hgr, orderBy_mem, hrows]; simp
  have hmemB : newRow (create_review db ⟨tA⟩ nA).1 ⟨tB⟩ nB ∈ out := by
    rw [hout, hgr, orderBy_mem, hrows]; simp
  have hsort : out.Pairwise RowLeP := by rw [hout]; exact hsorted _ _
  have hts : ¬ RowLeP (newRow db ⟨tA⟩ nA)
      (newRow (create_review db ⟨tA⟩ nA).1 ⟨tB⟩ nB) := by
    intro hc
    have hc2 : DateTime.leb nB nA = true := hc
    have hfalse : DateTime.ltb nA nB = false := by
      unfold DateTime.ltb
      rw [hc2]
      rfl
    rw [hfalse] at hlt
    exact Bool.false_ne_true hlt
  have hAneB : newRow db ⟨tA⟩ nA ≠ newRow (create_review db ⟨tA⟩ nA).1 ⟨tB⟩ nB := by
    intro he
    have hid : db.nextId = db.nextId + 1 := congrArg Row.id he
    omega
  obtain ⟨ia, hia, hiA⟩ := List.mem_iff_getElem.mp hmemA
  obtain ⟨ib, hib, hiB⟩ := List.mem_iff_getElem.mp hmemB
  rcases Nat.lt_trichotomy ia ib with hcmp | hcmp | hcmp
  · exfalso
    have hp := List.pairwise_iff_getElem.mp hsort ia ib hia hib hcmp
    rw [hiA, hiB] at hp
    exact hts hp
  · exfalso
    apply hAneB
    rw [← hiA, ← hiB]
    subst hcmp
    rfl
  · exact ⟨⟨ib, hib⟩, ⟨ia, hia⟩, hcmp, by simpa using hiB, by simpa using hiA⟩

/-- C5 witness: two creations one second apart on the fresh store. -/
theorem c5_witness :
    DateTime.ltb epoch0 epoch1 = true ∧
    ∃ i j : Fin (get_reviews (create_review (create_review initDb ⟨"a".toList⟩ epoch0).1
        ⟨"b".toList⟩ epoch1).1 none).length,
      i.val < j.val ∧
      (get_reviews (create_review (create_review initDb ⟨"a".toList⟩ epoch0).1
          ⟨"b".toList⟩ epoch1).1 none).get i =
        newRow (create_review initDb ⟨"a".toList⟩ epoch0).1 ⟨"b".toList⟩ epoch1 ∧
      (get_reviews (create_review (create_review initDb ⟨"a".toList⟩ epoch0).1
          ⟨"b".toList⟩ epoch1).1 none).get j =
        newRow initDb ⟨"a".toList⟩ epoch0 :=
  ⟨by decide,
    (c5_ordering_amended initDb "a".toList "b".toList epoch0 epoch1 (by decide)).2 _ rfl⟩
